import Mathlib

/-!
Verification development for the IAC energy-monitoring board firmware
(src/BoardConfig/BoardConfig.cpp and src/main.cpp).

The configuration parser (`readConfigText` and its helpers) is embedded
shallowly: C strings become Lean `String`s, `std::vector` becomes `List`,
C `float`/`double` values become `ℚ` (exact rationals; none of the verified
properties depend on floating-point rounding), and every place where the C++
code would commit undefined behavior (using a NULL result of `strtok`,
indexing a `std::vector` out of bounds) is surfaced as `none` in an
`Option` result.

The control loop of `main` is embedded as a step function on an explicit
state, with the external collaborators (the WiFi transport, the analog pins,
the backup file) supplied as a per-cycle environment record, following the
interface description of the specification (the collaborators' own sources
are not part of this repository).
-/

unseal Rat.mul Rat.add Rat.inv Rat.sub

namespace Telemetry

/-! ## Character and string primitives (C library model) -/

/-- C `isdigit` restricted to the decimal digits, as used by the parser. -/
def isDigitChar (c : Char) : Bool := '0' ≤ c && c ≤ '9'

/-- C `isspace`: the six standard whitespace characters. -/
def isSpaceChar (c : Char) : Bool :=
  c == ' ' || c == '\t' || c == '\n' || c == '\r' || c == '\x0b' || c == '\x0c'

/-- Value of a list of decimal digit characters, most significant first. -/
def natOfDigits (l : List Char) : Nat :=
  l.foldl (fun a c => a * 10 + (c.toNat - '0'.toNat)) 0

/-- One call of C `strtok`, modelled functionally: the remaining text is
threaded explicitly instead of `strtok`'s hidden static pointer.  Leading
delimiter characters are skipped; if nothing remains the call returns NULL
(`none`); otherwise the token runs to the next delimiter character, and the
remaining text starts after that delimiter. -/
def strtok (s : String) (delims : List Char) : Option (String × String) :=
  let rest := s.toList.dropWhile (fun c => delims.contains c)
  match rest with
  | [] => none
  | _ =>
    let tok := rest.takeWhile (fun c => !delims.contains c)
    let after := rest.dropWhile (fun c => !delims.contains c)
    some (String.mk tok, String.mk (after.drop 1))

/-- C `atof`, returning an exact rational instead of a rounded `double`:
optional whitespace, optional sign, integer digits, optional fraction,
optional exponent; no convertible prefix yields `0`. -/
def atofExp (mant : ℚ) (t : List Char) : ℚ :=
  let p : Bool × List Char :=
    match t with
    | '-' :: r => (true, r)
    | '+' :: r => (false, r)
    | _ => (false, t)
  let ed := p.2.takeWhile isDigitChar
  if ed.isEmpty then mant
  else if p.1 then mant / ((10 : ℚ) ^ natOfDigits ed)
  else mant * ((10 : ℚ) ^ natOfDigits ed)

/-- C `atof` (see `atofExp` for the exponent part). -/
def atof (s : String) : ℚ :=
  let l := s.toList.dropWhile isSpaceChar
  let p : ℚ × List Char :=
    match l with
    | '-' :: t => (-1, t)
    | '+' :: t => (1, t)
    | _ => (1, l)
  let ip := p.2.takeWhile isDigitChar
  let l₂ := p.2.dropWhile isDigitChar
  let q : List Char × List Char :=
    match l₂ with
    | '.' :: t => (t.takeWhile isDigitChar, t.dropWhile isDigitChar)
    | _ => ([], l₂)
  let mant : ℚ := (natOfDigits ip : ℚ) + (natOfDigits q.1 : ℚ) / ((10 : ℚ) ^ q.1.length)
  let scaled : ℚ :=
    match q.2 with
    | 'e' :: t => atofExp mant t
    | 'E' :: t => atofExp mant t
    | _ => mant
  p.1 * scaled

/-- C `atoi`: optional whitespace, optional sign, decimal digits.
Machine-int overflow of pathological inputs is not modelled. -/
def atoi (s : String) : Int :=
  let l := s.toList.dropWhile isSpaceChar
  let p : Int × List Char :=
    match l with
    | '-' :: t => (-1, t)
    | '+' :: t => (1, t)
    | _ => (1, l)
  p.1 * (natOfDigits (p.2.takeWhile isDigitChar) : Int)

/-- Conversion of a C `int` to `size_t` (the implicit conversion in
`tmp.SensorID = atoi(...)` feeding the `size_t` parameters of
`setUnitMultiplier` and `getSensorName`): reduction mod 2^64. -/
def toSizeT (i : Int) : Nat := (i % (2 ^ 64 : Int)).toNat

/-- C `strstr` as a Boolean test: does `needle` occur in `hay`? -/
def strstrB (hay needle : String) : Bool :=
  hay.toList.tails.any (fun t => needle.toList.isPrefixOf t)

/-- `Buffer[0]`: first character of the line buffer (the buffer as used is
never empty because `fgets` lines keep their newline). -/
def firstChar (s : String) : Char := s.toList.headD (Char.ofNat 0)

/-! ## Data model (Structs.h is not among the sources; the field list follows
the specification's data model, §3, with the C++ field `Type` renamed to
`SensorType` because `Type` is reserved in Lean) -/

/-- Per-port sampled value: the C++ code stores a `float` that is either an
ordinary scaled sample or one of the `±HUGE_VAL` error sentinels. -/
inductive FVal where
  | ninf
  | pinf
  | num (v : ℚ)
deriving DecidableEq, Repr, Inhabited

/-- One sensor-catalog entry (`SensorInfo`). -/
structure SensorInfo where
  SensorType : String
  Unit : String
  Multiplier : ℚ
  RangeStart : ℚ
  RangeEnd : ℚ
deriving DecidableEq, Repr, Inhabited

/-- One port binding (`PortInfo`). -/
structure PortInfo where
  Name : String
  SensorID : Nat
  Multiplier : ℚ
  Description : String
  RangeFloor : ℚ
  RangeCeiling : ℚ
  Value : FVal
deriving DecidableEq, Repr, Inhabited

/-- The parsed board configuration (`BoardSpecs`). -/
structure BoardSpecs where
  ID : String
  NetworkSSID : String
  NetworkPassword : String
  DatabaseTableName : String
  RemoteIP : String
  RemotePort : Int
  HostName : String
  RemoteDir : String
  Sensors : List SensorInfo
  Ports : List PortInfo
deriving DecidableEq, Repr, Inhabited

/-! ## BoardConfig.cpp -/

/-- `setUnitMultiplier` (BoardConfig.cpp:198-205): 0 when the index is past
the catalog, the referenced sensor's multiplier otherwise. -/
def setUnitMultiplier (Sensors : List SensorInfo) (Sens_ID : Nat) : ℚ :=
  if Sens_ID ≥ Sensors.length then 0
  else (Sensors.getD Sens_ID default).Multiplier

/-- `getSensorName` (BoardConfig.cpp:208-227): "No Sensor" when the index is
past the catalog, else "Type in Unit". -/
def getSensorName (Sensors : List SensorInfo) (Sens_ID : Nat) : String :=
  if Sens_ID ≥ Sensors.length then "No Sensor"
  else (Sensors.getD Sens_ID default).SensorType ++ " in " ++ (Sensors.getD Sens_ID default).Unit

/-- `setBoundsFromID` (BoardConfig.cpp:61-64).  The source body is the same
assignment written twice, copying the referenced sensor's `RangeEnd` into the
port's bound field both times (the duplication the specification flags as an
open question); with the port struct declaration not among the sources, the
specification's account is followed: both `RangeFloor` and `RangeCeiling`
receive the sensor's upper bound `RangeEnd`, and `RangeStart` is never read.
The source indexes `sensors[input.SensorID]` with no bounds check, so an
out-of-range `SensorID` is undefined behavior, surfaced here as `none`. -/
def setBoundsFromID (input : PortInfo) (sensors : List SensorInfo) : Option PortInfo :=
  match sensors[input.SensorID]? with
  | none => none
  | some sen => some { input with RangeFloor := sen.RangeEnd, RangeCeiling := sen.RangeEnd }

/-- Pass 1 body for one matching line (BoardConfig.cpp:81-111): discard the
id-prefix token up to `:`, then `Type`, `Unit`, `Multiplier`, `RangeStart`
comma-delimited and `RangeEnd` to end of line.  A NULL `strtok` result is
assigned to a `std::string` or passed to `atof` by the source, i.e. undefined
behavior: `none`. -/
def parseSensorLine (buf : String) : Option SensorInfo :=
  match strtok buf [':'] with
  | none => none
  | some (_, r0) =>
  match strtok r0 [','] with
  | none => none
  | some (ty, r1) =>
  match strtok r1 [','] with
  | none => none
  | some (un, r2) =>
  match strtok r2 [','] with
  | none => none
  | some (mu, r3) =>
  match strtok r3 [','] with
  | none => none
  | some (rs, r4) =>
  match strtok r4 ['\n'] with
  | none => none
  | some (re, _) =>
    some { SensorType := ty, Unit := un, Multiplier := atof mu,
           RangeStart := atof rs, RangeEnd := atof re }

/-- First reading loop of `readConfigText` (BoardConfig.cpp:78-112): collect
a `SensorInfo` from every line that starts with `S` and contains "SensorID". -/
def pass1 (lines : List String) : Option (List SensorInfo) :=
  lines.foldlM
    (fun acc line =>
      let buf := line ++ "\n"
      if strstrB buf "SensorID" && (firstChar buf == 'S') then
        match parseSensorLine buf with
        | none => none
        | some s => some (acc ++ [s])
      else some acc)
    []

/-- `ConnInfo` branch (BoardConfig.cpp:121-139): discard the first token,
then `RemoteIP`, `RemotePort` (only if its first character is a digit, else
the 0 sentinel), `HostName`, `RemoteDir` to end of line. -/
def parseConnLine (Specs : BoardSpecs) (buf : String) : Option BoardSpecs :=
  match strtok buf [':'] with
  | none => none
  | some (_, r0) =>
  match strtok r0 [':'] with
  | none => none
  | some (ip, r1) =>
  match strtok r1 [':'] with
  | none => none
  | some (pt, r2) =>
  match strtok r2 [':'] with
  | none => none
  | some (hn, r3) =>
  match strtok r3 ['\n'] with
  | none => none
  | some (rd, _) =>
    some { Specs with RemoteIP := ip,
                      RemotePort := if isDigitChar (firstChar pt) then atoi pt else 0,
                      HostName := hn, RemoteDir := rd }

/-- `Board` branch (BoardConfig.cpp:142-154).  Note the source assigns the
very first `:`-delimited token (the `B...Board...` marker itself) to
`Specs.ID` and the following three tokens to SSID, password and table name;
unlike the `ConnInfo` branch it never discards the marker token, and the
table-name token is read with delimiter `:`, not to end of line. -/
def parseBoardLine (Specs : BoardSpecs) (buf : String) : Option BoardSpecs :=
  match strtok buf [':'] with
  | none => none
  | some (bid, r0) =>
  match strtok r0 [':'] with
  | none => none
  | some (ssid, r1) =>
  match strtok r1 [':'] with
  | none => none
  | some (pw, r2) =>
  match strtok r2 [':'] with
  | none => none
  | some (tbl, _) =>
    some { Specs with ID := bid, NetworkSSID := ssid, NetworkPassword := pw,
                      DatabaseTableName := tbl }

/-- The `erase(SpaceDex)` of BoardConfig.cpp:172: `std::string::erase` with a
single position argument erases from that position through the end. -/
def eraseFrom (s : String) (i : Nat) : String := String.mk (s.toList.take i)

/-- `find_first_of(' ')` (BoardConfig.cpp:170). -/
def findSpaceIdx : List Char → Option Nat
  | [] => none
  | c :: rest => if c = ' ' then some 0 else (findSpaceIdx rest).map (· + 1)

/-- The whitespace-removal `while` loop of BoardConfig.cpp:170-174, with
explicit fuel (the loop terminates because `erase` shortens the string). -/
def removeSpacesLoop : Nat → String → String
  | 0, s => s
  | fuel + 1, s =>
    match findSpaceIdx s.toList with
    | none => s
    | some i => removeSpacesLoop fuel (eraseFrom s i)

/-- The whitespace-removal loop applied to a port name. -/
def removeSpaces (s : String) : String := removeSpacesLoop (s.toList.length + 1) s

/-- Port branch (BoardConfig.cpp:155-191): name token up to `:`, sensor id to
end of line, whitespace-removal loop on the name, multiplier and description
resolved from the catalog, bounds set by `setBoundsFromID` (unchecked index),
and the port appended only if the resolved multiplier is nonzero.
`mkPortEntry` is the `PortInfo tmp` as populated by BoardConfig.cpp:159-180
just before the `setBoundsFromID` call. -/
def mkPortEntry (sensors : List SensorInfo) (nm sid : String) : PortInfo :=
  { Name := removeSpaces nm, SensorID := toSizeT (atoi sid),
    Multiplier := setUnitMultiplier sensors (toSizeT (atoi sid)),
    Description := getSensorName sensors (toSizeT (atoi sid)),
    RangeFloor := 0, RangeCeiling := 0, Value := FVal.num 0 }

def parsePortLine (Specs : BoardSpecs) (buf : String) : Option BoardSpecs :=
  match strtok buf [':'] with
  | none => none
  | some (nm, r0) =>
  match strtok r0 ['\n'] with
  | none => none
  | some (sid, _) =>
  match setBoundsFromID (mkPortEntry Specs.Sensors nm sid) Specs.Sensors with
  | none => none
  | some tmp' =>
    some (if tmp'.Multiplier ≠ 0 then { Specs with Ports := Specs.Ports ++ [tmp'] } else Specs)

/-- Second reading loop of `readConfigText`, one line (BoardConfig.cpp:116-192):
the `ConnInfo` `if` runs first, then the `Board`/port `if`/`else if` chain
(a line matching `ConnInfo` starts with `C` and so never also matches the
`Board` or port tests). -/
def pass2Line (Specs : BoardSpecs) (line : String) : Option BoardSpecs :=
  match (if (firstChar (line ++ "\n") == 'C') && strstrB (line ++ "\n") "ConnInfo"
         then parseConnLine Specs (line ++ "\n") else some Specs) with
  | none => none
  | some Specs' =>
    if (firstChar (line ++ "\n") == 'B') && strstrB (line ++ "\n") "Board" then
      parseBoardLine Specs' (line ++ "\n")
    else if firstChar (line ++ "\n") == 'P' then parsePortLine Specs' (line ++ "\n")
    else some Specs'

/-- `readConfigText` (BoardConfig.cpp:67-195) on the list of input lines
(each without its trailing newline; `fgets` line splitting at the unknown
`BUFFLEN` is not modelled).  Two passes over the same lines: the sensor
catalog first, then connection info, board identity and ports.  `none` marks
an execution in which the C++ code commits undefined behavior. -/
def readConfigText (lines : List String) : Option BoardSpecs :=
  match pass1 lines with
  | none => none
  | some sensors =>
    lines.foldlM pass2Line
      { ID := "", NetworkSSID := "", NetworkPassword := "", DatabaseTableName := "",
        RemoteIP := "", RemotePort := 0, HostName := "", RemoteDir := "",
        Sensors := sensors, Ports := [] }

/-! ## main.cpp: the control loop

The loop body (main.cpp:149-286) is embedded as a step function on an
explicit state.  The external collaborators — the analog pins, the ESP WiFi
transport and the backup file — are supplied per cycle as an environment
record, matching the collaborator interfaces of the specification (§6); the
backup file is the FIFO store of the specification's backup-store interface
(`OfflineLogging.cpp` is not among the sources). -/

/-- One buffered backup entry: the snapshot of port values that
`dumpSensorDataToFile` appends. -/
abbrev Entry := List FVal

/-- The number of pins in the `AnalogIn Port[]` array (main.cpp:69-70). -/
def NUM_ANALOG_PINS : Nat := 10

/-- Observable events of one cycle, used to state the temporal claims. -/
inductive LoopAction where
  | connectAttempt (success : Bool)
  | sendBacklog (entry : Entry) (success : Bool)
  | deleteEntry (entry : Entry)
  | sendCurrent (success : Bool)
  | bufferCurrent
deriving DecidableEq, Repr

/-- Mutable state of the control loop across cycles. -/
structure LoopState where
  OfflineMode : Bool
  wifi_tries : Int
  PollingInterval : ℚ
  Ports : List PortInfo
  Backlog : List Entry
deriving DecidableEq, Repr, Inhabited

/-- Result reported by one send call of the transport collaborator, together
with the polling-timer test that guards the next drain iteration:
`timeOk` is the value of `PollingTimer.read() <= PollingInterval`, `ok`
whether the send returned `NETWORKSUCCESS`, and `override` the value the call
left in the by-reference interval parameter (initialized to `-1` by the
caller, i.e. `-1` means the remote side supplied no override). -/
structure SendResult where
  timeOk : Bool
  ok : Bool
  override : ℚ
deriving DecidableEq, Repr, Inhabited

/-- Environment of one cycle: the raw analog samples and the answers of the
connectivity collaborator, in the order the loop body consults them. -/
structure CycleEnv where
  raws : Nat → ℚ
  espConn1 : Bool
  connectOk : Bool
  espConn2 : Bool
  drainEnv : List SendResult
  currentSend : SendResult

/-- Range validation of one scaled sample (main.cpp:158-172): the stored
value is `HUGE_VAL` above the ceiling, `-HUGE_VAL` below the floor, and the
scaled sample itself otherwise. -/
def validateReading (raw Multiplier RangeFloor RangeCeiling : ℚ) : FVal :=
  let v := raw * Multiplier
  if v > RangeCeiling then FVal.pinf
  else if v < RangeFloor then FVal.ninf
  else FVal.num v

/-- The port-reading `for` loop (main.cpp:152-179): the `i`-th port is read
from pin `i` and validated only when its multiplier is nonzero. -/
def samplePorts (raws : Nat → ℚ) : Nat → List PortInfo → List PortInfo
  | _, [] => []
  | i, p :: rest =>
    (if p.Multiplier ≠ 0 then
       { p with Value := validateReading (raws i) p.Multiplier p.RangeFloor p.RangeCeiling }
     else p) :: samplePorts raws (i + 1) rest

/-- The interval-override update after each send (main.cpp:228-232 and
248-255): `if (tmp != -1.0f && tmp > 0.0f) PollingInterval = tmp;`. -/
def applyOverride (PollingInterval tmp : ℚ) : ℚ :=
  if tmp ≠ -1 ∧ tmp > 0 then tmp else PollingInterval

/-- The backlog-draining `while` loop (main.cpp:220-243): while the polling
timer has not expired and the backup file is non-empty, send the oldest
entry, apply its interval override, and on success delete the entry and
continue, on failure `break` with the entry still buffered.  The recursion
consumes one `SendResult` per iteration; an exhausted environment list stands
for an expired timer.  Returns the emitted actions, the remaining backlog and
the updated polling interval. -/
def drainBacklog (PollingInterval : ℚ) : List Entry → List SendResult →
    List LoopAction × List Entry × ℚ
  | bl, [] => ([], bl, PollingInterval)
  | [], _ :: _ => ([], [], PollingInterval)
  | e :: rest, r :: envRest =>
    if r.timeOk then
      let interval' := applyOverride PollingInterval r.override
      if r.ok then
        let d := drainBacklog interval' rest envRest
        (LoopAction.sendBacklog e true :: LoopAction.deleteEntry e :: d.1, d.2.1, d.2.2)
      else ([LoopAction.sendBacklog e false], e :: rest, interval')
    else ([], e :: rest, PollingInterval)

/-- One full cycle of the `while (true)` loop (main.cpp:149-286): sample and
validate the ports, then, unless in offline mode, reconnect if needed
(decrementing `wifi_tries` on failure and entering offline mode permanently
when the budget is exhausted, resetting it to `WIFITRIES` on success), drain
the backlog, and send or buffer the current readings; in offline mode the
readings are only buffered.  `W` is the configured `WIFITRIES` maximum. -/
def cycleStep (W : Int) (s : LoopState) (env : CycleEnv) : LoopState × List LoopAction :=
  let ports' := samplePorts env.raws 0 s.Ports
  let current : Entry := ports'.map PortInfo.Value
  if s.OfflineMode then
    ({ s with Ports := ports', Backlog := s.Backlog ++ [current] }, [LoopAction.bufferCurrent])
  else
    let s₁ : LoopState :=
      if env.espConn1 then { s with Ports := ports' }
      else if env.connectOk then { s with Ports := ports', wifi_tries := W }
      else
        { s with Ports := ports', wifi_tries := s.wifi_tries - 1,
                 OfflineMode := decide (s.wifi_tries - 1 ≤ 0) }
    let acts₁ : List LoopAction :=
      if env.espConn1 then [] else [LoopAction.connectAttempt env.connectOk]
    if env.espConn2 then
      let d := drainBacklog s₁.PollingInterval s₁.Backlog env.drainEnv
      if d.2.1.isEmpty then
        let int' := applyOverride d.2.2 env.currentSend.override
        if env.currentSend.ok then
          ({ s₁ with Backlog := d.2.1, PollingInterval := int' },
           acts₁ ++ d.1 ++ [LoopAction.sendCurrent true])
        else
          ({ s₁ with Backlog := d.2.1 ++ [current], PollingInterval := int' },
           acts₁ ++ d.1 ++ [LoopAction.sendCurrent false, LoopAction.bufferCurrent])
      else
        ({ s₁ with Backlog := d.2.1 ++ [current], PollingInterval := d.2.2 },
         acts₁ ++ d.1 ++ [LoopAction.bufferCurrent])
    else
      ({ s₁ with Backlog := s₁.Backlog ++ [current] }, acts₁ ++ [LoopAction.bufferCurrent])

/-- Iterated cycles: final state and the per-cycle action traces. -/
def runLoop (W : Int) (s : LoopState) : List CycleEnv → LoopState × List (List LoopAction)
  | [] => (s, [])
  | env :: rest =>
    ((runLoop W (cycleStep W s env).1 rest).1,
     (cycleStep W s env).2 :: (runLoop W (cycleStep W s env).1 rest).2)

/-! ## Definitions used by the statements of the claims -/

/-- Invariant maintained while the second pass builds the port topology:
the catalog is the pass-1 catalog, and every retained port has a nonzero
multiplier and bounds copied (both) from its referenced sensor's upper
bound. -/
def PortsOk (S : List SensorInfo) (b : BoardSpecs) : Prop :=
  b.Sensors = S ∧ ∀ p ∈ b.Ports, p.Multiplier ≠ 0 ∧
    ∃ sen, S[p.SensorID]? = some sen ∧
      p.RangeFloor = sen.RangeEnd ∧ p.RangeCeiling = sen.RangeEnd

/-- The action trace of the sends whose entries were deleted: each deletion
immediately follows the successful send of the same entry. -/
def ackDeletes : List Entry → List LoopAction
  | [] => []
  | e :: rest => LoopAction.sendBacklog e true :: LoopAction.deleteEntry e :: ackDeletes rest

/-- The pin indices the sampling loop dereferences in `Port[i]`
(main.cpp:152-159): every index below the port count whose port has a
nonzero multiplier. -/
def pinIndicesRead (ports : List PortInfo) : List Nat :=
  (List.range ports.length).filter (fun i => decide ((ports.getD i default).Multiplier ≠ 0))

/-- The specification's §8 example: one sensor line and one port line. -/
def exLines : List String := ["SensorID:Voltage,V,0.01,0,500", "P Main:0"]

/-- Same example but with a catalog entry whose multiplier field is `0`. -/
def zeroMultLines : List String := ["SensorID:Voltage,V,0,0,500", "P Main:0"]

/-- A board-identity line with five `:`-delimited fields
(`B...Board...:ID:SSID:Password:DatabaseTableName` per the specification). -/
def boardLine5 : List String := ["BBoard:myid:myssid:mypass:mytable"]

/-- One sensor line followed by eleven port lines referencing it. -/
def manyPortLines : List String :=
  "SensorID:Voltage,V,0.01,0,500" :: List.replicate 11 "P Main:0"

/-- A retained port as produced by parsing, for concrete witnesses. -/
def wPort : PortInfo :=
  { Name := "P", SensorID := 0, Multiplier := 1, Description := "Voltage in V",
    RangeFloor := 0, RangeCeiling := 500, Value := FVal.num 0 }

/-- A state already in offline mode. -/
def wOffState : LoopState :=
  { OfflineMode := true, wifi_tries := 0, PollingInterval := 5, Ports := [wPort], Backlog := [] }

/-- An online state with one remaining retry. -/
def wOnState : LoopState :=
  { OfflineMode := false, wifi_tries := 1, PollingInterval := 5, Ports := [wPort], Backlog := [] }

/-- Environment: disconnected, reconnect fails. -/
def wEnvFail : CycleEnv :=
  { raws := fun _ => 250, espConn1 := false, connectOk := false, espConn2 := false,
    drainEnv := [], currentSend := { timeOk := true, ok := true, override := -1 } }

/-- Environment: connected throughout, current send succeeds with an
override of 10. -/
def wEnvConn : CycleEnv :=
  { raws := fun _ => 250, espConn1 := true, connectOk := true, espConn2 := true,
    drainEnv := [], currentSend := { timeOk := true, ok := true, override := 10 } }

/-- Environment: disconnected, reconnect succeeds. -/
def wEnvReconnect : CycleEnv :=
  { raws := fun _ => 250, espConn1 := false, connectOk := true, espConn2 := true,
    drainEnv := [], currentSend := { timeOk := true, ok := true, override := -1 } }

/-! ## Invariants of the parsed topology -/

/-- What `setBoundsFromID` does when it does not fault: the referenced sensor
exists and both bounds receive its `RangeEnd`. -/
theorem setBoundsFromID_eq (input : PortInfo) (sensors : List SensorInfo) (p : PortInfo)
    (h : setBoundsFromID input sensors = some p) :
    ∃ sen, sensors[input.SensorID]? = some sen ∧
      p = { input with RangeFloor := sen.RangeEnd, RangeCeiling := sen.RangeEnd } := by
  unfold setBoundsFromID at h
  split at h
  · exact absurd h (by simp)
  · next sen heq => exact ⟨sen, heq, (Option.some.inj h).symm⟩

/-- The `ConnInfo` branch touches neither the catalog nor the ports. -/
theorem parseConnLine_preserves (s : BoardSpecs) (buf : String) (s' : BoardSpecs)
    (h : parseConnLine s buf = some s') :
    s'.Sensors = s.Sensors ∧ s'.Ports = s.Ports := by
  unfold parseConnLine at h
  split at h
  · exact absurd h (by simp)
  split at h
  · exact absurd h (by simp)
  split at h
  · exact absurd h (by simp)
  split at h
  · exact absurd h (by simp)
  split at h
  · exact absurd h (by simp)
  cases h
  exact ⟨rfl, rfl⟩

/-- The `Board` branch touches neither the catalog nor the ports. -/
theorem parseBoardLine_preserves (s : BoardSpecs) (buf : String) (s' : BoardSpecs)
    (h : parseBoardLine s buf = some s') :
    s'.Sensors = s.Sensors ∧ s'.Ports = s.Ports := by
  unfold parseBoardLine at h
  split at h
  · exact absurd h (by simp)
  split at h
  · exact absurd h (by simp)
  split at h
  · exact absurd h (by simp)
  split at h
  · exact absurd h (by simp)
  cases h
  exact ⟨rfl, rfl⟩

/-- The port branch preserves the invariant. -/
theorem parsePortLine_preserves (S : List SensorInfo) (b : BoardSpecs) (buf : String)
    (b' : BoardSpecs) (h : parsePortLine b buf = some b') (hb : PortsOk S b) : PortsOk S b' := by
  unfold parsePortLine at h
  split at h
  · exact absurd h (by simp)
  next nm r0 _ =>
  split at h
  · exact absurd h (by simp)
  next sid r1 _ =>
  split at h
  · exact absurd h (by simp)
  next tmp' hbnd =>
  obtain ⟨sen, hsen, htmp⟩ := setBoundsFromID_eq _ _ _ hbnd
  cases h
  split
  case isTrue hmul =>
    refine ⟨hb.1, ?_⟩
    intro p hp
    rcases List.mem_append.mp hp with hold | hnew
    · exact hb.2 p hold
    · have hpe : p = tmp' := by simpa using hnew
      subst hpe
      refine ⟨hmul, sen, ?_, ?_, ?_⟩
      · rw [htmp]
        simpa [hb.1] using hsen
      · rw [htmp]
      · rw [htmp]
  case isFalse => exact hb

/-- One line of the second pass preserves the invariant. -/
theorem pass2Line_preserves (S : List SensorInfo) (b : BoardSpecs) (line : String)
    (b' : BoardSpecs) (h : pass2Line b line = some b') (hb : PortsOk S b) : PortsOk S b' := by
  unfold pass2Line at h
  split at h
  · exact absurd h (by simp)
  next mid hmid =>
  have hbmid : PortsOk S mid := by
    split at hmid
    · obtain ⟨h1, h2⟩ := parseConnLine_preserves _ _ _ hmid
      exact ⟨h1.trans hb.1, fun p hp => hb.2 p (h2 ▸ hp)⟩
    · cases hmid; exact hb
  split at h
  · obtain ⟨h1, h2⟩ := parseBoardLine_preserves _ _ _ h
    exact ⟨h1.trans hbmid.1, fun p hp => hbmid.2 p (h2 ▸ hp)⟩
  · split at h
    · exact parsePortLine_preserves S mid _ b' h hbmid
    · cases h; exact hbmid

/-- Propagating a predicate through a fallible left fold. -/
theorem foldlM_option_preserves {α β : Type} (f : β → α → Option β) (P : β → Prop)
    (hf : ∀ b a b', f b a = some b' → P b → P b') :
    ∀ (l : List α) (b0 b1 : β), List.foldlM f b0 l = some b1 → P b0 → P b1 := by
  intro l
  induction l with
  | nil =>
    intro b0 b1 h hP
    rw [List.foldlM_nil] at h
    cases h
    exact hP
  | cons a t ih =>
    intro b0 b1 h hP
    rw [List.foldlM_cons] at h
    cases hfa : f b0 a with
    | none => rw [hfa] at h; exact absurd h (by simp [Option.bind])
    | some b2 =>
      rw [hfa] at h
      simp only [Option.bind_eq_bind, Option.some_bind] at h
      exact ih b2 b1 h (hf b0 a b2 hfa hP)

/-- Every successfully parsed configuration satisfies the port invariant. -/
theorem readConfigText_portsOk (lines : List String) (b : BoardSpecs)
    (h : readConfigText lines = some b) :
    ∀ p ∈ b.Ports, p.Multiplier ≠ 0 ∧
      ∃ sen, b.Sensors[p.SensorID]? = some sen ∧
        p.RangeFloor = sen.RangeEnd ∧ p.RangeCeiling = sen.RangeEnd := by
  unfold readConfigText at h
  split at h
  · exact absurd h (by simp)
  next sensors hsens =>
  have hinv : PortsOk sensors b :=
    foldlM_option_preserves pass2Line (PortsOk sensors)
      (fun b a b' hf hP => pass2Line_preserves sensors b a b' hf hP)
      lines _ b h ⟨rfl, by simp⟩
  intro p hp
  obtain ⟨hm, sen, hsen, h1, h2⟩ := hinv.2 p hp
  exact ⟨hm, sen, by rw [hinv.1]; exact hsen, h1, h2⟩

/-! ## The whitespace-removal loop truncates at the first space -/

/-- Rebuilding a string from its character list is the identity. -/
theorem mk_toList (s : String) : String.mk s.toList = s := rfl

/-- One unfolding of the whitespace-removal loop. -/
theorem removeSpacesLoop_succ (fuel : Nat) (s : String) :
    removeSpacesLoop (fuel + 1) s =
      match findSpaceIdx s.toList with
      | none => s
      | some i => removeSpacesLoop fuel (eraseFrom s i) := rfl

/-- When a name contains no space the loop leaves it unchanged. -/
theorem findSpaceIdx_none_takeWhile (l : List Char) (h : findSpaceIdx l = none) :
    l.takeWhile (fun c => c != ' ') = l := by
  induction l with
  | nil => rfl
  | cons c rest ih =>
    unfold findSpaceIdx at h
    by_cases hc : c = ' '
    · simp [hc] at h
    · have hbc : (c != ' ') = true := by simpa using hc
      rw [if_neg hc] at h
      cases hrest : findSpaceIdx rest with
      | none => simp [List.takeWhile, hbc, ih hrest]
      | some j => rw [hrest] at h; simp at h

/-- The index found by `find_first_of(' ')` is the first space: the prefix
kept by `erase` is exactly the largest space-free prefix. -/
theorem findSpaceIdx_some_take (l : List Char) (i : Nat) (h : findSpaceIdx l = some i) :
    l.take i = l.takeWhile (fun c => c != ' ') := by
  induction l generalizing i with
  | nil => simp [findSpaceIdx] at h
  | cons c rest ih =>
    unfold findSpaceIdx at h
    by_cases hc : c = ' '
    · rw [if_pos hc] at h
      cases h
      have hbc : (c != ' ') = false := by rw [hc]; rfl
      simp [List.takeWhile, hbc]
    · rw [if_neg hc] at h
      have hbc : (c != ' ') = true := by simpa using hc
      cases hrest : findSpaceIdx rest with
      | none => rw [hrest] at h; simp at h
      | some j =>
        rw [hrest] at h
        simp only [Option.map_some'] at h
        cases h
        simp [List.takeWhile, hbc, ih j hrest]

/-- A space-free prefix contains no space. -/
theorem findSpaceIdx_takeWhile_none (l : List Char) :
    findSpaceIdx (l.takeWhile (fun c => c != ' ')) = none := by
  induction l with
  | nil => rfl
  | cons c rest ih =>
    by_cases hc : c = ' '
    · have hbc : (c != ' ') = false := by rw [hc]; rfl
      simp [List.takeWhile, hbc, findSpaceIdx]
    · have hbc : (c != ' ') = true := by simpa using hc
      simp [List.takeWhile, hbc, findSpaceIdx, hc, ih]

/-- The whitespace-removal loop of BoardConfig.cpp:170-174 computed in closed
form: because `erase(pos)` deletes through the end of the string, the loop
truncates the name at its first space (it does not delete individual
spaces). -/
theorem removeSpaces_eq_takeWhile (s : String) :
    removeSpaces s = String.mk (s.toList.takeWhile (fun c => c != ' ')) := by
  unfold removeSpaces
  rw [removeSpacesLoop_succ]
  cases hd : findSpaceIdx s.toList with
  | none =>
    rw [findSpaceIdx_none_takeWhile _ hd, mk_toList]
  | some i =>
    show removeSpacesLoop s.toList.length (eraseFrom s i)
        = String.mk (s.toList.takeWhile (fun c => c != ' '))
    have hn : ∃ n, s.toList.length = n + 1 := by
      cases hl : s.toList with
      | nil => rw [hl] at hd; exact absurd hd (by simp [findSpaceIdx])
      | cons c rest => exact ⟨rest.length, rfl⟩
    obtain ⟨n, hn⟩ := hn
    rw [hn, removeSpacesLoop_succ]
    have htl : (eraseFrom s i).toList = s.toList.take i := rfl
    rw [htl, findSpaceIdx_some_take _ _ hd, findSpaceIdx_takeWhile_none]
    exact congrArg String.mk (findSpaceIdx_some_take _ _ hd)

/-! ## Backlog draining is delete-after-ack, FIFO, abort-on-failure -/

/-- Shape of every drain execution: some prefix of `k` entries is sent and
deleted in order (delete immediately after the acknowledged send), and the
remaining backlog is exactly the rest; if a send failed, the failed entry is
still the head of the remaining backlog and nothing follows the failure. -/
theorem drainBacklog_spec : ∀ (env : List SendResult) (interval : ℚ) (bl : List Entry),
    ∃ k, (drainBacklog interval bl env).2.1 = bl.drop k ∧
      ((drainBacklog interval bl env).1 = ackDeletes (bl.take k) ∨
       ∃ e, (bl.drop k).head? = some e ∧
         (drainBacklog interval bl env).1
           = ackDeletes (bl.take k) ++ [LoopAction.sendBacklog e false]) := by
  intro env
  induction env with
  | nil =>
    intro interval bl
    exact ⟨0, by simp [drainBacklog], Or.inl (by cases bl <;> simp [drainBacklog, ackDeletes])⟩
  | cons r envRest ih =>
    intro interval bl
    cases bl with
    | nil => exact ⟨0, by simp [drainBacklog], Or.inl (by simp [drainBacklog, ackDeletes])⟩
    | cons e rest =>
      by_cases ht : r.timeOk
      · by_cases hok : r.ok
        · obtain ⟨k, hbl, hacts⟩ := ih (applyOverride interval r.override) rest
          refine ⟨k + 1, ?_, ?_⟩
          · simpa [drainBacklog, ht, hok] using hbl
          · rcases hacts with hacts | ⟨e', he', hacts⟩
            · exact Or.inl (by simp [drainBacklog, ht, hok, ackDeletes, hacts])
            · exact Or.inr ⟨e', by simpa using he',
                by simp [drainBacklog, ht, hok, ackDeletes, hacts]⟩
        · refine ⟨0, by simp [drainBacklog, ht, hok], Or.inr ⟨e, by simp, ?_⟩⟩
          simp [drainBacklog, ht, hok, ackDeletes]
      · exact ⟨0, by simp [drainBacklog, ht], Or.inl (by simp [drainBacklog, ht, ackDeletes])⟩

/-! ## Control-loop lemmas -/

/-- Draining an empty backlog does nothing. -/
theorem drainBacklog_nil (interval : ℚ) (env : List SendResult) :
    drainBacklog interval [] env = ([], [], interval) := by
  cases env <;> rfl

/-- In offline mode a cycle only samples and buffers: offline mode persists
and the only observable action is the local buffering of the readings. -/
theorem cycleStep_offline (W : Int) (s : LoopState) (env : CycleEnv)
    (h : s.OfflineMode = true) :
    (cycleStep W s env).1.OfflineMode = true ∧
      (cycleStep W s env).1.Backlog
        = s.Backlog ++ [(samplePorts env.raws 0 s.Ports).map PortInfo.Value] ∧
      (cycleStep W s env).2 = [LoopAction.bufferCurrent] := by
  unfold cycleStep
  simp [h]

/-- A failed reconnect that exhausts the budget switches the cycle's
resulting state to offline mode. -/
theorem cycleStep_exhaust (W : Int) (s : LoopState) (env : CycleEnv)
    (h0 : s.OfflineMode = false) (h1 : env.espConn1 = false)
    (h2 : env.connectOk = false) (h3 : s.wifi_tries - 1 ≤ 0) :
    (cycleStep W s env).1.OfflineMode = true := by
  unfold cycleStep
  simp only [h0, h1, h2, Bool.false_eq_true, if_false]
  repeat' split
  all_goals simp [h3]

/-- A successful reconnect resets the retry budget to the configured
maximum `WIFITRIES`. -/
theorem cycleStep_reset (W : Int) (s : LoopState) (env : CycleEnv)
    (h0 : s.OfflineMode = false) (h1 : env.espConn1 = false)
    (h2 : env.connectOk = true) :
    (cycleStep W s env).1.wifi_tries = W := by
  unfold cycleStep
  simp only [h0, h1, h2, Bool.false_eq_true, if_false, if_true]
  repeat' split
  all_goals rfl

/-- Offline mode is absorbing across any number of cycles, and while offline
every cycle's trace is exactly one local-buffer action (in particular no
reconnect attempt and no send). -/
theorem runLoop_offline (W : Int) : ∀ (envs : List CycleEnv) (s : LoopState),
    s.OfflineMode = true →
    (runLoop W s envs).1.OfflineMode = true ∧
      ∀ acts ∈ (runLoop W s envs).2, acts = [LoopAction.bufferCurrent] := by
  intro envs
  induction envs with
  | nil =>
    intro s h
    exact ⟨h, by intro acts hm; simp [runLoop] at hm⟩
  | cons e rest ih =>
    intro s h
    obtain ⟨ho, hb, ha⟩ := cycleStep_offline W s e h
    obtain ⟨ih1, ih2⟩ := ih (cycleStep W s e).1 ho
    refine ⟨ih1, ?_⟩
    intro acts hm
    rcases List.mem_cons.mp hm with hm | hm
    · rw [hm]; exact ha
    · exact ih2 acts hm

/-- Every cycle, whatever branch is taken, stores the freshly sampled and
validated port values. -/
theorem cycleStep_ports (W : Int) (s : LoopState) (env : CycleEnv) :
    (cycleStep W s env).1.Ports = samplePorts env.raws 0 s.Ports := by
  simp only [cycleStep]
  repeat' split
  all_goals rfl

/-- Position `i` of the sampled port list: an active port's stored value is
the validated scaled sample from pin `n + i`. -/
theorem samplePorts_value (raws : Nat → ℚ) :
    ∀ (ports : List PortInfo) (n i : Nat), i < ports.length →
    (ports.getD i default).Multiplier ≠ 0 →
    ((samplePorts raws n ports).getD i default).Value
      = validateReading (raws (n + i)) (ports.getD i default).Multiplier
          (ports.getD i default).RangeFloor (ports.getD i default).RangeCeiling := by
  intro ports
  induction ports with
  | nil => intro n i hi _; simp at hi
  | cons p rest ih =>
    intro n i hi hm
    cases i with
    | zero =>
      simp only [List.getD_cons_zero] at hm ⊢
      simp [samplePorts, hm]
    | succ j =>
      simp only [List.getD_cons_succ] at hm ⊢
      have hj : j < rest.length := by simpa using hi
      have := ih (n + 1) j hj hm
      simpa [samplePorts, Nat.add_assoc, Nat.add_comm 1 j] using this

/-- With the backlog empty and the board connected, the cycle's new polling
interval is the override-update applied to the current-send result. -/
theorem cycleStep_interval (W : Int) (s : LoopState) (env : CycleEnv)
    (h0 : s.OfflineMode = false) (h1 : env.espConn1 = true)
    (h2 : env.espConn2 = true) (h3 : s.Backlog = []) :
    (cycleStep W s env).1.PollingInterval
      = applyOverride s.PollingInterval env.currentSend.override := by
  unfold cycleStep
  simp only [h0, h1, h2, h3, Bool.false_eq_true, if_false, if_true, drainBacklog_nil]
  repeat' split
  all_goals first
  | rfl
  | simp_all

/-! ## Arithmetic of the pin-index bound -/

/-- An element read by `getD` below the length is a member of the list. -/
theorem getD_mem_of_lt : ∀ (l : List PortInfo) (i : Nat), i < l.length →
    l.getD i default ∈ l := by
  intro l
  induction l with
  | nil => intro i h; simp at h
  | cons p rest ih =>
    intro i h
    cases i with
    | zero => simp
    | succ j =>
      have hmem := ih j (by simpa using h)
      rw [List.getD_cons_succ]
      exact List.mem_cons_of_mem p hmem

/-- When every retained port has a nonzero multiplier, the sampling loop's
pin accesses stay below the pin-array size exactly when there are at most
`NUM_ANALOG_PINS` ports. -/
theorem pinIndices_iff (b : BoardSpecs) (hmult : ∀ p ∈ b.Ports, p.Multiplier ≠ 0) :
    (∀ i ∈ pinIndicesRead b.Ports, i < NUM_ANALOG_PINS) ↔
      b.Ports.length ≤ NUM_ANALOG_PINS := by
  constructor
  · intro hB
    by_contra hlen
    push_neg at hlen
    have hmem : NUM_ANALOG_PINS ∈ pinIndicesRead b.Ports := by
      unfold pinIndicesRead
      refine List.mem_filter.mpr ⟨List.mem_range.mpr hlen, ?_⟩
      simp only [decide_eq_true_eq]
      exact hmult _ (getD_mem_of_lt _ _ hlen)
    exact absurd (hB _ hmem) (by simp)
  · intro hlen i hi
    have h1 : i ∈ List.range b.Ports.length := (List.mem_filter.mp hi).1
    have h2 := List.mem_range.mp h1
    omega

/-! ## Claims -/

/-- C1 (corrected): for every retained port, BOTH `RangeFloor` and
`RangeCeiling` are copied from the referenced sensor's `RangeEnd`; the lower
bound is never taken from the sensor's `RangeStart` (the duplicated
assignment in `setBoundsFromID`, BoardConfig.cpp:61-64). -/
theorem c1_port_bounds_both_from_rangeEnd (lines : List String) (b : BoardSpecs)
    (h : readConfigText lines = some b) :
    ∀ p ∈ b.Ports, ∃ sen, b.Sensors[p.SensorID]? = some sen ∧
      p.RangeFloor = sen.RangeEnd ∧ p.RangeCeiling = sen.RangeEnd :=
  fun p hp => (readConfigText_portsOk lines b h p hp).2

/-- C1 witness: the bound-copy theorem instantiated at the specification's
§8 example input and its single retained port. -/
theorem c1_port_bounds_witness :
    ∃ sen, ((readConfigText exLines).getD default).Sensors[
        (((readConfigText exLines).getD default).Ports.getD 0 default).SensorID]? = some sen ∧
      (((readConfigText exLines).getD default).Ports.getD 0 default).RangeFloor = sen.RangeEnd ∧
      (((readConfigText exLines).getD default).Ports.getD 0 default).RangeCeiling = sen.RangeEnd :=
  c1_port_bounds_both_from_rangeEnd exLines ((readConfigText exLines).getD default) (by decide)
    (((readConfigText exLines).getD default).Ports.getD 0 default) (by decide)

/-- C1 counterexample: the §8 example (`SensorID:Voltage,V,0.01,0,500` then
`P Main:0`) yields a port whose range is `[500, 500]`, not `[0, 500]`: the
floor is not the sensor's `RangeStart` 0. -/
theorem c1_range_counterexample :
    (readConfigText exLines).map
      (fun b => b.Ports.map (fun p => (p.RangeFloor, p.RangeCeiling)))
      = some [((500 : ℚ), (500 : ℚ))] ∧ ((500 : ℚ) ≠ 0) := by
  constructor
  · decide
  · decide

/-- C2 (code bug): a port line whose `SensorID` does not resolve is NOT
handled without out-of-bounds access — `readConfigText` calls
`setBoundsFromID`, which indexes `sensors[SensorID]` unchecked, before the
retention test; with an empty catalog the single line `P Main:0` drives the
parse into undefined behavior (`none` in this embedding) instead of being
skipped. -/
theorem c2_dangling_port_out_of_bounds : readConfigText ["P Main:0"] = none := by decide

/-- C3 (corrected): every port retained by a successful parse has a nonzero
resolved multiplier; resolution to an existing catalog entry alone does not
suffice (see the counterexample), and an out-of-range reference reaches the
unchecked bounds read of C2 before the drop decision. -/
theorem c3_retained_ports_multiplier_nonzero (lines : List String) (b : BoardSpecs)
    (h : readConfigText lines = some b) :
    ∀ p ∈ b.Ports, p.Multiplier ≠ 0 :=
  fun p hp => (readConfigText_portsOk lines b h p hp).1

/-- C3 witness: the retained-multiplier theorem at the §8 example input and
its single retained port. -/
theorem c3_retained_ports_witness :
    (((readConfigText exLines).getD default).Ports.getD 0 default).Multiplier ≠ 0 :=
  c3_retained_ports_multiplier_nonzero exLines ((readConfigText exLines).getD default) (by decide)
    (((readConfigText exLines).getD default).Ports.getD 0 default) (by decide)

/-- C3 counterexample: a port whose `SensorID` (0) resolves to an existing
catalog entry (the catalog has one sensor) is nevertheless dropped, because
that sensor's multiplier field is 0 — retention is not equivalent to
resolution. -/
theorem c3_resolved_but_dropped_counterexample :
    (readConfigText zeroMultLines).map (fun b => (b.Sensors.length, b.Ports.length))
      = some (1, 0) ∧ (0 : Nat) < 1 := by
  constructor
  · decide
  · decide

/-- C4 (confirmed): exhausting the retry budget on a failed reconnect sets
offline mode; offline mode is absorbing over any remainder of the run, in
which every cycle's whole trace is one local-buffer action (no reconnect
attempt, no send); and a successful reconnect resets the budget to the
configured `WIFITRIES` maximum. -/
theorem c4_offline_is_permanent :
    (∀ (W : Int) (s : LoopState) (env : CycleEnv),
       s.OfflineMode = false → env.espConn1 = false → env.connectOk = false →
       s.wifi_tries - 1 ≤ 0 → (cycleStep W s env).1.OfflineMode = true) ∧
    (∀ (W : Int) (envs : List CycleEnv) (s : LoopState), s.OfflineMode = true →
       (runLoop W s envs).1.OfflineMode = true ∧
         ∀ acts ∈ (runLoop W s envs).2, acts = [LoopAction.bufferCurrent]) ∧
    (∀ (W : Int) (s : LoopState) (env : CycleEnv),
       s.OfflineMode = false → env.espConn1 = false → env.connectOk = true →
       (cycleStep W s env).1.wifi_tries = W) :=
  ⟨cycleStep_exhaust, fun W envs s h => runLoop_offline W envs s h, cycleStep_reset⟩

/-- C4 witness: the three parts of the offline-permanence theorem at
concrete states and environments. -/
theorem c4_offline_witness :
    (cycleStep 3 wOnState wEnvFail).1.OfflineMode = true ∧
    ((runLoop 3 wOffState [wEnvConn]).1.OfflineMode = true ∧
      ∀ acts ∈ (runLoop 3 wOffState [wEnvConn]).2, acts = [LoopAction.bufferCurrent]) ∧
    (cycleStep 3 wOnState wEnvReconnect).1.wifi_tries = 3 :=
  ⟨c4_offline_is_permanent.1 3 wOnState wEnvFail rfl rfl rfl (by decide),
   c4_offline_is_permanent.2.1 3 [wEnvConn] wOffState rfl,
   c4_offline_is_permanent.2.2 3 wOnState wEnvReconnect rfl rfl rfl⟩

/-- C5 (confirmed): every drain execution sends and deletes some prefix of
the backlog in order, each deletion immediately after the acknowledged send
of the same entry; the remaining backlog is exactly the untouched suffix,
and after a failed send nothing further happens and the failed entry is
still the oldest buffered entry. -/
theorem c5_delete_only_after_ack : ∀ (env : List SendResult) (interval : ℚ) (bl : List Entry),
    ∃ k, (drainBacklog interval bl env).2.1 = bl.drop k ∧
      ((drainBacklog interval bl env).1 = ackDeletes (bl.take k) ∨
       ∃ e, (bl.drop k).head? = some e ∧
         (drainBacklog interval bl env).1
           = ackDeletes (bl.take k) ++ [LoopAction.sendBacklog e false]) :=
  drainBacklog_spec

/-- C6 (confirmed): whenever the floor does not exceed the ceiling (true of
every retained port, whose bounds coincide), the stored value is `+∞` above
the ceiling, `-∞` below the floor, and the scaled sample itself otherwise;
the specification's three examples; and the cycle step really stores these
validated values for every active port. -/
theorem c6_value_validation :
    (∀ raw m f c : ℚ, f ≤ c →
      ((raw * m > c → validateReading raw m f c = FVal.pinf) ∧
       (raw * m < f → validateReading raw m f c = FVal.ninf) ∧
       (f ≤ raw * m → raw * m ≤ c → validateReading raw m f c = FVal.num (raw * m)))) ∧
    (validateReading 600 1 0 500 = FVal.pinf ∧
     validateReading (-5) 1 0 500 = FVal.ninf ∧
     validateReading 250 1 0 500 = FVal.num 250) ∧
    (∀ (W : Int) (s : LoopState) (env : CycleEnv),
       (cycleStep W s env).1.Ports = samplePorts env.raws 0 s.Ports) ∧
    (∀ (ports : List PortInfo) (raws : Nat → ℚ) (n i : Nat), i < ports.length →
       (ports.getD i default).Multiplier ≠ 0 →
       ((samplePorts raws n ports).getD i default).Value
         = validateReading (raws (n + i)) (ports.getD i default).Multiplier
             (ports.getD i default).RangeFloor (ports.getD i default).RangeCeiling) := by
  refine ⟨?_, ⟨by decide, by decide, by decide⟩, cycleStep_ports,
          fun ports raws n i hi hm => samplePorts_value raws ports n i hi hm⟩
  intro raw m f c hfc
  refine ⟨?_, ?_, ?_⟩
  · intro h
    simp [validateReading, h]
  · intro h
    have hnc : ¬ raw * m > c := by
      intro hgt
      exact absurd (lt_trans h (lt_of_le_of_lt hfc hgt)) (lt_irrefl _)
    simp [validateReading, hnc, h]
  · intro h1 h2
    have hnc : ¬ raw * m > c := not_lt.mpr h2
    have hnf : ¬ raw * m < f := not_lt.mpr h1
    simp [validateReading, hnc, hnf]

/-- C6 witness: the validation cases at the specification's example inputs,
and the stored value of a concrete sampled port. -/
theorem c6_value_validation_witness :
    validateReading 600 1 0 500 = FVal.pinf ∧
    validateReading (-5) 1 0 500 = FVal.ninf ∧
    validateReading 250 1 0 500 = FVal.num (250 * 1) ∧
    ((samplePorts (fun _ => 600) 0 [wPort]).getD 0 default).Value
      = validateReading 600 wPort.Multiplier wPort.RangeFloor wPort.RangeCeiling :=
  ⟨(c6_value_validation.1 600 1 0 500 (by decide)).1 (by decide),
   (c6_value_validation.1 (-5) 1 0 500 (by decide)).2.1 (by decide),
   (c6_value_validation.1 250 1 0 500 (by decide)).2.2 (by decide) (by decide),
   c6_value_validation.2.2.2 [wPort] (fun _ => 600) 0 0 (by decide) (by decide)⟩

/-- C7 (corrected): the whitespace-removal loop truncates the port name at
its first space (erase-to-end semantics), so the name stored for the §8
example's port line `P Main:0` is `"P"`, not `"Main"`. -/
theorem c7_name_truncated_at_first_space :
    (∀ s : String, removeSpaces s = String.mk (s.toList.takeWhile (fun c => c != ' '))) ∧
    (readConfigText exLines).map (fun b => b.Ports.map PortInfo.Name) = some ["P"] :=
  ⟨removeSpaces_eq_takeWhile, by decide⟩

/-- C7 counterexample: the §8 example yields the retained port name `"P"`,
which differs from the claimed `"Main"`. -/
theorem c7_name_counterexample :
    (readConfigText exLines).map (fun b => b.Ports.map PortInfo.Name) = some ["P"] ∧
      "P" ≠ "Main" := by
  constructor
  · decide
  · decide

/-- C8 (corrected): for a five-field `B...Board...:ID:SSID:Password:Table`
line, the code assigns the marker token itself to the board identity and
shifts every following assignment by one field: SSID gets the ID field,
the password gets the SSID field, the table name gets the password field,
and the final field is ignored. -/
theorem c8_board_fields_shifted :
    (readConfigText boardLine5).map
      (fun b => (b.ID, b.NetworkSSID, b.NetworkPassword, b.DatabaseTableName))
      = some ("BBoard", "myid", "myssid", "mypass") := by
  decide

/-- C8 counterexample: on the five-field line the board identity is the
marker token `"BBoard"`, not the ID field `"myid"` the claim requires. -/
theorem c8_board_identity_counterexample :
    (readConfigText boardLine5).map (fun b => b.ID) = some "BBoard" ∧
      "BBoard" ≠ "myid" := by
  constructor
  · decide
  · decide

/-- C9 (confirmed): a strictly positive interval override from a send
becomes the new polling interval, the `-1` sentinel leaves it unchanged, and
with an empty backlog and a connected board the cycle's new interval is
exactly the override-update of the current send. -/
theorem c9_interval_override :
    (∀ i o : ℚ, o > 0 → applyOverride i o = o) ∧
    (∀ i : ℚ, applyOverride i (-1) = i) ∧
    (∀ (W : Int) (s : LoopState) (env : CycleEnv),
       s.OfflineMode = false → env.espConn1 = true → env.espConn2 = true →
       s.Backlog = [] →
       (cycleStep W s env).1.PollingInterval
         = applyOverride s.PollingInterval env.currentSend.override) := by
  refine ⟨?_, ?_, cycleStep_interval⟩
  · intro i o ho
    have hne : o ≠ -1 := by
      intro h
      rw [h] at ho
      norm_num at ho
    simp [applyOverride, hne, ho]
  · intro i
    simp [applyOverride]

/-- C9 witness: an override of 10 is adopted, and a concrete connected
cycle's interval equals the override-update of its current send. -/
theorem c9_interval_override_witness :
    applyOverride 5 10 = 10 ∧
    (cycleStep 3 wOnState wEnvConn).1.PollingInterval
      = applyOverride wOnState.PollingInterval wEnvConn.currentSend.override :=
  ⟨c9_interval_override.1 5 10 (by decide),
   c9_interval_override.2.2 3 wOnState wEnvConn rfl rfl rfl rfl⟩

/-- C10 (confirmed): for every parsed topology the sampling loop's pin
indices stay below the 10-element `Port[]` array exactly when at most 10
ports were retained, and the parser happily retains 11 ports from a
perfectly well-formed configuration — neither the parser nor the loop
enforces the limit. -/
theorem c10_pin_array_bound :
    (∀ (lines : List String) (b : BoardSpecs), readConfigText lines = some b →
       ((∀ i ∈ pinIndicesRead b.Ports, i < NUM_ANALOG_PINS) ↔
         b.Ports.length ≤ NUM_ANALOG_PINS)) ∧
    (readConfigText manyPortLines).map (fun b => b.Ports.length) = some 11 ∧
    NUM_ANALOG_PINS < 11 := by
  refine ⟨?_, by decide, by decide⟩
  intro lines b h
  exact pinIndices_iff b (fun p hp => (readConfigText_portsOk lines b h p hp).1)

/-- C10 witness: the bound equivalence at the eleven-port example input. -/
theorem c10_pin_array_bound_witness :
    (∀ i ∈ pinIndicesRead ((readConfigText manyPortLines).getD default).Ports,
        i < NUM_ANALOG_PINS) ↔
      ((readConfigText manyPortLines).getD default).Ports.length ≤ NUM_ANALOG_PINS :=
  c10_pin_array_bound.1 manyPortLines _ (by decide)

end Telemetry
